import Mathlib

/-!
Verification of the Crossword websocket server (`src/python/websocketServer.py`).

The server keeps all puzzle state in a redis database and reacts to socket.io
events.  We embed the redis state as a Lean structure and each event handler as
a pure function from the current state (plus the incoming message and the
sender's socket id) to the new state together with the list of outgoing sends.

Redis list/hash commands used by the server are modelled directly:
`LPUSH` prepends (several values are inserted one after the other at the head,
so a pushed run ends up reversed), `RPUSH` appends in order, `LSET` is an
index write accepting negative tail-relative indices and erroring when the
index is out of range, and hashes are insertion-ordered association lists
(`HSET` updates in place or appends a fresh field, `HDEL` removes it,
`HKEYS`/`HVALS` list fields and values in that same order).
-/

set_option autoImplicit false

namespace Crossword

universe u

variable {α : Type u}

/-- Redis `LPUSH key v`: prepends a single value at the head of the list. -/
def lpushOne (l : List α) (v : α) : List α := v :: l

/-- Redis `LPUSH key v₁ … vₙ`: the values are inserted one after the other at
the head, so the pushed run ends up reversed at the front of the list. -/
def lpushMany (l : List α) (vs : List α) : List α :=
  vs.foldl (fun acc v => lpushOne acc v) l

/-- Redis `RPUSH key v₁ … vₙ`: appends the values in order at the tail. -/
def rpushMany (l : List α) (vs : List α) : List α := l ++ vs

/-- Redis `LSET key i v`: negative indices count from the tail
(`-1` is the last element); an index out of range is an error (`none`). -/
def lsetI (l : List α) (i : Int) (v : α) : Option (List α) :=
  let eff : Int := if i < 0 then (l.length : Int) + i else i
  if 0 ≤ eff ∧ eff < (l.length : Int) then some (l.set eff.toNat v) else none

/-- Redis `HSET`: update the field in place when present, otherwise append a
fresh field at the end (redis hashes keep field insertion order). -/
def hset : List (String × String) → String → String → List (String × String)
  | [], k, v => [(k, v)]
  | p :: t, k, v => if p.1 = k then (k, v) :: t else p :: hset t k v

/-- Redis `HDEL`: remove the field. -/
def hdel (h : List (String × String)) (k : String) : List (String × String) :=
  h.filter (fun p => p.1 != k)

/-- Redis `HGET`: the value stored at a field, if any. -/
def hget (h : List (String × String)) (k : String) : Option String :=
  (h.find? (fun p => p.1 == k)).map Prod.snd

/-- Redis `HKEYS`: the fields in insertion order. -/
def hkeys (h : List (String × String)) : List String := h.map Prod.fst

/-- Redis `HVALS`: the values in insertion order. -/
def hvals (h : List (String × String)) : List String := h.map Prod.snd

/-- The whole redis database as the server uses it: the puzzle state keys
written by `initializeRedisFromJson` plus the `userHash` presence hash. -/
structure ServerState where
  rows : Int
  cols : Int
  grid : List String
  answerGrid : List String
  gridNumbers : List Int
  cluesAcross : List String
  cluesDown : List String
  title : String
  revealedGrid : List Int
  userHash : List (String × String)
  deriving DecidableEq

/-- Payload of an outgoing socket.io emit.  `text` is a verbatim passthrough of
an incoming JSON string; the other constructors model the `json.dumps` of the
dictionaries the server builds (`presenceSnapshot` for
`{websocketID: keys, position: values}`, `positionsOnly` for
`{position: values}`, `sid` for the bare socket id sent on connect). -/
inductive Payload where
  | text (s : String)
  | presenceSnapshot (websocketID : List String) (position : List String)
  | positionsOnly (position : List String)
  | sid (s : String)
  deriving DecidableEq

/-- An outgoing send: `unicast` models `emit(...)` inside a handler (delivered
to the sender only), `broadcast` models `socketio.emit(..., include_self=b)`
(delivered to every connected client, minus the sender when `b` is false). -/
inductive Send where
  | unicast (event : String) (payload : Payload)
  | broadcast (event : String) (payload : Payload) (includeSelf : Bool)
  deriving DecidableEq

/-- The clients a send reaches, given the currently connected clients and the
socket id of the handler's sender. -/
def recipients (clients : List String) (sender : String) : Send → List String
  | Send.unicast _ _ => clients.filter (fun c => c == sender)
  | Send.broadcast _ _ includeSelf =>
      if includeSelf then clients else clients.filter (fun c => c != sender)

/-- The event name and payload of a send. -/
def payloadOf : Send → String × Payload
  | Send.unicast e p => (e, p)
  | Send.broadcast e p _ => (e, p)

/-- Everything client `c` receives from a list of sends, in order. -/
def deliveredTo (clients : List String) (sender : String) (sends : List Send)
    (c : String) : List (String × Payload) :=
  (sends.filter (fun s => (recipients clients sender s).contains c)).map payloadOf

/-- The parsed fields of a `clientGridUpdate` JSON message that the handler
reads: `req['method']`, `req['position']`, `req['value']`. -/
structure GridUpdateReq where
  method : String
  position : Int
  value : String
  deriving DecidableEq

/-- An incoming `clientGridUpdate` message: the original JSON text together
with its parse (the handler re-emits the raw text verbatim). -/
structure GridMsg where
  raw : String
  req : GridUpdateReq
  deriving DecidableEq

/-- The error a grid-update can raise: redis `LSET` on an out-of-range index. -/
inductive HandlerErr where
  | OutOfRangeError
  deriving DecidableEq

/-- `handle_UpdateGrid` (the `clientGridUpdate` handler): on `method ==
"manual"` it runs `r.lset("grid", position, value)`; on `"revealed"` it runs
`r.lpush("revealedGrid", position)`; any other method touches nothing.  It then
emits `serverGridUpdate` with the original incoming string, excluding the
sender.  When `lset` errors the exception aborts the handler before the emit,
so the state is unchanged and nothing is sent. -/
def handle_UpdateGrid (st : ServerState) (msg : GridMsg) :
    ServerState × List Send × Option HandlerErr :=
  if msg.req.method = "manual" then
    match lsetI st.grid msg.req.position msg.req.value with
    | some g =>
        ({ st with grid := g },
         [Send.broadcast "serverGridUpdate" (Payload.text msg.raw) false], none)
    | none => (st, [], some HandlerErr.OutOfRangeError)
  else if msg.req.method = "revealed" then
    ({ st with revealedGrid := lpushOne st.revealedGrid msg.req.position },
     [Send.broadcast "serverGridUpdate" (Payload.text msg.raw) false], none)
  else
    (st, [Send.broadcast "serverGridUpdate" (Payload.text msg.raw) false], none)

/-- An incoming `clientPositionUpdate` message: the raw JSON text and its
`position` field (stored into redis, which keeps it as a string). -/
structure PosMsg where
  raw : String
  position : String
  deriving DecidableEq

/-- `handle_UpdatePosition` (the `clientPositionUpdate` handler): stores the
sender's position in the `userHash` hash, then broadcasts
`{websocketID: hkeys, position: hvals}` of the updated hash as
`serverPositionUpdate` to everyone, sender included (`include_self=True`). -/
def handle_UpdatePosition (st : ServerState) (sid : String) (msg : PosMsg) :
    ServerState × List Send :=
  let h := hset st.userHash sid msg.position
  ({ st with userHash := h },
   [Send.broadcast "serverPositionUpdate"
      (Payload.presenceSnapshot (hkeys h) (hvals h)) true])

/-- `handle_connect` (the socket.io `connect` handler): registers the new
connection in `userHash` with position `"0"` and emits `serverAssignID`
carrying the socket id to the connecting client only. -/
def handle_connect (st : ServerState) (sid : String) : ServerState × List Send :=
  ({ st with userHash := hset st.userHash sid "0" },
   [Send.unicast "serverAssignID" (Payload.sid sid)])

/-- The `disconnect` handler (also named `handle_connect` in the source file,
shadowing the connect handler): deletes the connection's `userHash` field and
broadcasts `{position: hvals}` of the reduced hash as `serverPositionUpdate`
with `include_self=False`. -/
def handle_disconnect (st : ServerState) (sid : String) : ServerState × List Send :=
  let h := hdel st.userHash sid
  ({ st with userHash := h },
   [Send.broadcast "serverPositionUpdate" (Payload.positionsOnly (hvals h)) false])

/-- The `size` object of the puzzle-definition JSON. -/
structure JsonSize where
  rows : Int
  cols : Int
  deriving DecidableEq

/-- The `clues` object of the puzzle-definition JSON. -/
structure JsonClues where
  across : List String
  down : List String
  deriving DecidableEq

/-- The parsed puzzle-definition JSON; each top-level key the loader reads may
be absent (`none`), in which case the subscript raises a `KeyError`. -/
structure JsonData where
  size : Option JsonSize
  grid : Option (List String)
  clues : Option JsonClues
  gridnums : Option (List Int)
  title : Option String
  deriving DecidableEq

/-- The error loading can raise: a missing key in the JSON (python `KeyError`). -/
inductive LoadErr where
  | keyError (key : String)
  deriving DecidableEq

/-- The blanking loop of `initializeRedisFromJson`: every letter other than
`'.'` is overwritten with `' '`. -/
def blankNonDots (g : List String) : List String :=
  g.map (fun c => if c ≠ "." then " " else c)

/-- `initializeRedisFromJson`: flushes the database (all keys and `userHash`
gone), sets `cols`/`rows`, `RPUSH`es `answerGrid`, the clue lists and
`gridNumbers` in order, sets `title`, `LPUSH`es the sentinel `-1` onto
`revealedGrid`, then blanks the non-`.` letters of the definition's grid and
`LPUSH`es the result onto `grid` (so the live grid is stored reversed).  A
missing key raises `KeyError`; no length or consistency check is performed. -/
def initializeRedisFromJson (j : JsonData) : Except LoadErr ServerState :=
  match j.size with
  | none => Except.error (LoadErr.keyError "size")
  | some sz =>
    match j.grid with
    | none => Except.error (LoadErr.keyError "grid")
    | some g =>
      match j.clues with
      | none => Except.error (LoadErr.keyError "clues")
      | some cl =>
        match j.gridnums with
        | none => Except.error (LoadErr.keyError "gridnums")
        | some gn =>
          match j.title with
          | none => Except.error (LoadErr.keyError "title")
          | some t =>
            Except.ok
              { rows := sz.rows
                cols := sz.cols
                grid := lpushMany [] (blankNonDots g)
                answerGrid := rpushMany [] g
                gridNumbers := rpushMany [] gn
                cluesAcross := rpushMany [] cl.across
                cluesDown := rpushMany [] cl.down
                title := t
                revealedGrid := lpushOne [] (-1)
                userHash := [] }

/-!
Helper lemmas about the redis model and the delivery bookkeeping.
-/

theorem lsetI_of_nonneg_lt {l : List α} {i : Int} (v : α)
    (h0 : 0 ≤ i) (hlt : i < (l.length : Int)) :
    lsetI l i v = some (l.set i.toNat v) := by
  have hni : ¬ i < 0 := not_lt.2 h0
  simp [lsetI, hni, h0, hlt]

theorem lsetI_none {l : List α} {i : Int} (v : α)
    (hout : (l.length : Int) ≤ i ∨ i < -(l.length : Int)) :
    lsetI l i v = none := by
  simp only [lsetI]
  by_cases hi : i < 0
  · have hneg : ¬(0 ≤ (l.length : Int) + i ∧ (l.length : Int) + i < (l.length : Int)) := by
      omega
    rw [if_pos hi, if_neg hneg]
  · have hneg : ¬((0 : Int) ≤ i ∧ i < (l.length : Int)) := by omega
    rw [if_neg hi, if_neg hneg]

theorem deliveredTo_broadcast_excl_of_mem (clients : List String)
    (sender c e : String) (p : Payload) (hc : c ∈ clients) (hne : c ≠ sender) :
    deliveredTo clients sender [Send.broadcast e p false] c = [(e, p)] := by
  simp [deliveredTo, recipients, payloadOf, List.elem_iff, List.mem_filter, hc, hne]

theorem deliveredTo_broadcast_excl_self (clients : List String)
    (sender e : String) (p : Payload) :
    deliveredTo clients sender [Send.broadcast e p false] sender = [] := by
  simp [deliveredTo, recipients, payloadOf, List.elem_iff, List.mem_filter]

theorem deliveredTo_broadcast_incl_of_mem (clients : List String)
    (sender c e : String) (p : Payload) (hc : c ∈ clients) :
    deliveredTo clients sender [Send.broadcast e p true] c = [(e, p)] := by
  simp [deliveredTo, recipients, payloadOf, List.elem_iff, hc]

theorem deliveredTo_unicast_self (clients : List String)
    (sender e : String) (p : Payload) (hc : sender ∈ clients) :
    deliveredTo clients sender [Send.unicast e p] sender = [(e, p)] := by
  simp [deliveredTo, recipients, payloadOf, List.elem_iff, List.mem_filter, hc]

theorem deliveredTo_unicast_other (clients : List String)
    (sender c e : String) (p : Payload) (hne : c ≠ sender) :
    deliveredTo clients sender [Send.unicast e p] c = [] := by
  simp [deliveredTo, recipients, payloadOf, List.elem_iff, List.mem_filter, hne]

theorem hget_hset_self (h : List (String × String)) (k v : String) :
    hget (hset h k v) k = some v := by
  induction h with
  | nil => simp [hset, hget]
  | cons p t ih =>
      by_cases hp : p.1 = k
      · simp [hset, if_pos hp, hget, List.find?_cons_of_pos]
      · have hb : (p.1 == k) = false := by simp [hp]
        simp only [hset, if_neg hp, hget] at ih ⊢
        rw [List.find?_cons_of_neg _ (by simp [hb])]
        exact ih

theorem hget_hdel_self (h : List (String × String)) (k : String) :
    hget (hdel h k) k = none := by
  induction h with
  | nil => rfl
  | cons p t ih =>
      by_cases hp : p.1 = k
      · simpa [hdel, List.filter, hp] using ih
      · simp only [hdel, List.filter] at ih ⊢
        have hb : (p.1 != k) = true := by simp [hp]
        rw [hb]
        simp only [hget]
        rw [List.find?_cons_of_neg _ (by simp [hp])]
        exact ih

theorem not_mem_hkeys_hdel (h : List (String × String)) (k : String) :
    k ∉ hkeys (hdel h k) := by
  simp only [hkeys, hdel, List.mem_map, List.mem_filter]
  rintro ⟨p, ⟨_, hp⟩, rfl⟩
  simp at hp

theorem hset_solo (h : List (String × String)) (k v : String)
    (hk : hkeys h = [] ∨ hkeys h = [k]) :
    hset h k v = [(k, v)] := by
  match h, hk with
  | [], _ => rfl
  | [p], hk =>
      rcases hk with h1 | h1
      · simp [hkeys] at h1
      · simp only [hkeys, List.map] at h1
        have : p.1 = k := by simpa using h1
        simp [hset, this]
  | p :: q :: t, hk => rcases hk with h1 | h1 <;> simp [hkeys] at h1

/-!
The claims.
-/

/-- A concrete well-formed 1×2 puzzle definition whose answer grid has its one
non-playable `.` cell first. -/
def C1defn : JsonData :=
  { size := some { rows := 1, cols := 2 }
    grid := some [".", "A"]
    clues := some { across := ["a"], down := ["d"] }
    gridnums := some [1, 0]
    title := some "t" }

/-- C1: refuted on the code. The claim says the live grid holds `.` at exactly
the indices where the answer grid holds `.` and a blank everywhere else, but
the loader writes the live grid with `LPUSH`, which stores it reversed, while
`answerGrid` is written order-preserving with `RPUSH`. For the 1×2 definition
with answer grid `[".", "A"]` the live grid comes out `[" ", "."]`: index 0 is
`.` in the answer grid yet blank in the live grid. -/
theorem initializeRedisFromJson_reverses_grid :
    initializeRedisFromJson C1defn =
      Except.ok
        { rows := 1, cols := 2, grid := [" ", "."], answerGrid := [".", "A"],
          gridNumbers := [1, 0], cluesAcross := ["a"], cluesDown := ["d"],
          title := "t", revealedGrid := [-1], userHash := [] } ∧
    ¬ (∀ st : ServerState, initializeRedisFromJson C1defn = Except.ok st →
        ∀ i : Nat, i < st.grid.length →
          (st.grid[i]? = some "." ↔ st.answerGrid[i]? = some ".")) := by
  refine ⟨rfl, fun hcl => ?_⟩
  exact absurd (hcl _ rfl 0 (by decide)) (by decide)

/-- A concrete 1×2 state as the loader leaves it for an all-playable puzzle. -/
def C2st : ServerState :=
  { rows := 1, cols := 2, grid := [" ", " "], answerGrid := ["A", "B"],
    gridNumbers := [1, 2], cluesAcross := ["a"], cluesDown := ["d"],
    title := "t", revealedGrid := [-1], userHash := [] }

/-- A concrete `manual` grid update writing `B` at position 1. -/
def C2msg : GridMsg :=
  { raw := "rawC2", req := { method := "manual", position := 1, value := "B" } }

/-- C2: a `manual` grid update with in-range position (`0 ≤ p < rows*cols`)
stores the value at that position, raises no error, and every other connected
client receives exactly one broadcast carrying the original incoming message
verbatim, while the sender receives nothing. -/
theorem handle_UpdateGrid_manual_ok
    (st : ServerState) (msg : GridMsg) (clients : List String) (sender : String)
    (hm : msg.req.method = "manual")
    (h0 : 0 ≤ msg.req.position)
    (hlt : msg.req.position < st.rows * st.cols)
    (hlen : (st.grid.length : Int) = st.rows * st.cols) :
    (handle_UpdateGrid st msg).1.grid[msg.req.position.toNat]? = some msg.req.value ∧
    (handle_UpdateGrid st msg).2.2 = none ∧
    (∀ c, c ∈ clients → c ≠ sender →
      deliveredTo clients sender (handle_UpdateGrid st msg).2.1 c =
        [("serverGridUpdate", Payload.text msg.raw)]) ∧
    deliveredTo clients sender (handle_UpdateGrid st msg).2.1 sender = [] := by
  have hlt' : msg.req.position < (st.grid.length : Int) := by rw [hlen]; exact hlt
  have hls := lsetI_of_nonneg_lt (l := st.grid) msg.req.value h0 hlt'
  have htn : msg.req.position.toNat < st.grid.length := by omega
  refine ⟨?_, ?_, ?_, ?_⟩
  · simp [handle_UpdateGrid, hm, hls, List.getElem?_set_self htn]
  · simp [handle_UpdateGrid, hm, hls]
  · intro c hc hne
    simp only [handle_UpdateGrid, hm, if_pos rfl, hls]
    exact deliveredTo_broadcast_excl_of_mem clients sender c _ _ hc hne
  · simp only [handle_UpdateGrid, hm, if_pos rfl, hls]
    exact deliveredTo_broadcast_excl_self clients sender _ _

/-- Witness for C2: the concrete 1×2 state, clients `x` and `y`, sender `x`. -/
theorem handle_UpdateGrid_manual_ok_witness :
    (handle_UpdateGrid C2st C2msg).1.grid[(1 : Int).toNat]? = some "B" ∧
    (handle_UpdateGrid C2st C2msg).2.2 = none ∧
    deliveredTo ["x", "y"] "x" (handle_UpdateGrid C2st C2msg).2.1 "y" =
      [("serverGridUpdate", Payload.text "rawC2")] ∧
    deliveredTo ["x", "y"] "x" (handle_UpdateGrid C2st C2msg).2.1 "x" = [] := by
  have h := handle_UpdateGrid_manual_ok C2st C2msg ["x", "y"] "x" rfl (by decide)
    (by decide) (by decide)
  exact ⟨h.1, h.2.1, h.2.2.1 "y" (by decide) (by decide), h.2.2.2⟩

/-- C3: a `revealed` grid update pushes the position onto `revealedGrid`
(redis `LPUSH`), so afterwards the position occurs in `revealedGrid` at least
once, and each repeated call for the same position adds one more occurrence
(no deduplication); no error is raised. -/
theorem handle_UpdateGrid_revealed_ok (st : ServerState) (msg : GridMsg)
    (hm : msg.req.method = "revealed") :
    (handle_UpdateGrid st msg).1.revealedGrid = msg.req.position :: st.revealedGrid ∧
    msg.req.position ∈ (handle_UpdateGrid st msg).1.revealedGrid ∧
    ((handle_UpdateGrid st msg).1.revealedGrid).count msg.req.position =
      st.revealedGrid.count msg.req.position + 1 ∧
    (handle_UpdateGrid st msg).2.2 = none := by
  have hnm : msg.req.method ≠ "manual" := by rw [hm]; decide
  simp [handle_UpdateGrid, hm, hnm, lpushOne]

/-- Witness for C3: revealing position 1 twice on the concrete 1×2 state. -/
theorem handle_UpdateGrid_revealed_ok_witness :
    (handle_UpdateGrid C2st
        { raw := "rawC3", req := { method := "revealed", position := 1, value := "" } }
      ).1.revealedGrid = 1 :: C2st.revealedGrid ∧
    (1 : Int) ∈ (handle_UpdateGrid C2st
        { raw := "rawC3", req := { method := "revealed", position := 1, value := "" } }
      ).1.revealedGrid := by
  have h := handle_UpdateGrid_revealed_ok C2st
    { raw := "rawC3", req := { method := "revealed", position := 1, value := "" } } rfl
  exact ⟨h.1, h.2.1⟩

/-- C4: a grid update whose method is neither `manual` nor `revealed` leaves
the store entirely unchanged (the returned state is the input state, every
field included) and raises no error. -/
theorem handle_UpdateGrid_other_noop (st : ServerState) (msg : GridMsg)
    (hm : msg.req.method ≠ "manual") (hr : msg.req.method ≠ "revealed") :
    (handle_UpdateGrid st msg).1 = st ∧ (handle_UpdateGrid st msg).2.2 = none := by
  simp [handle_UpdateGrid, hm, hr]

/-- Witness for C4: an update with unrecognized method `bogus`. -/
theorem handle_UpdateGrid_other_noop_witness :
    (handle_UpdateGrid C2st
        { raw := "rawC4", req := { method := "bogus", position := 0, value := "Q" } }
      ).1 = C2st ∧
    (handle_UpdateGrid C2st
        { raw := "rawC4", req := { method := "bogus", position := 0, value := "Q" } }
      ).2.2 = none :=
  handle_UpdateGrid_other_noop C2st
    { raw := "rawC4", req := { method := "bogus", position := 0, value := "Q" } }
    (by decide) (by decide)

/-- C10: a grid update with an unrecognized method still emits the original
message verbatim as `serverGridUpdate` to every other connected client,
excluding the sender, even though the store was not modified. -/
theorem handle_UpdateGrid_other_broadcasts
    (st : ServerState) (msg : GridMsg) (clients : List String) (sender : String)
    (hm : msg.req.method ≠ "manual") (hr : msg.req.method ≠ "revealed") :
    (handle_UpdateGrid st msg).2.1 =
      [Send.broadcast "serverGridUpdate" (Payload.text msg.raw) false] ∧
    (∀ c, c ∈ clients → c ≠ sender →
      deliveredTo clients sender (handle_UpdateGrid st msg).2.1 c =
        [("serverGridUpdate", Payload.text msg.raw)]) ∧
    deliveredTo clients sender (handle_UpdateGrid st msg).2.1 sender = [] := by
  have hsends : (handle_UpdateGrid st msg).2.1 =
      [Send.broadcast "serverGridUpdate" (Payload.text msg.raw) false] := by
    simp [handle_UpdateGrid, hm, hr]
  refine ⟨hsends, ?_, ?_⟩
  · intro c hc hne
    rw [hsends]
    exact deliveredTo_broadcast_excl_of_mem clients sender c _ _ hc hne
  · rw [hsends]
    exact deliveredTo_broadcast_excl_self clients sender _ _

/-- Witness for C10: unrecognized method `bogus`, clients `x` and `y`,
sender `x`. -/
theorem handle_UpdateGrid_other_broadcasts_witness :
    (handle_UpdateGrid C2st
        { raw := "rawC10", req := { method := "bogus", position := 0, value := "Q" } }
      ).2.1 = [Send.broadcast "serverGridUpdate" (Payload.text "rawC10") false] ∧
    deliveredTo ["x", "y"] "x"
      (handle_UpdateGrid C2st
        { raw := "rawC10", req := { method := "bogus", position := 0, value := "Q" } }
      ).2.1 "y" = [("serverGridUpdate", Payload.text "rawC10")] ∧
    deliveredTo ["x", "y"] "x"
      (handle_UpdateGrid C2st
        { raw := "rawC10", req := { method := "bogus", position := 0, value := "Q" } }
      ).2.1 "x" = [] := by
  have h := handle_UpdateGrid_other_broadcasts C2st
    { raw := "rawC10", req := { method := "bogus", position := 0, value := "Q" } }
    ["x", "y"] "x" (by decide) (by decide)
  exact ⟨h.1, h.2.1 "y" (by decide) (by decide), h.2.2⟩

/-- A concrete `manual` grid update targeting position `-1`. -/
def C5msg : GridMsg :=
  { raw := "rawC5", req := { method := "manual", position := -1, value := "Z" } }

/-- C5 counterexample: position `-1` is not a valid grid index
(`0 ≤ p < rows*cols` fails), yet the handler raises no error and mutates the
grid — redis `LSET` accepts negative tail-relative indices and writes the
last cell. -/
theorem handle_UpdateGrid_negative_position_succeeds :
    (handle_UpdateGrid C2st C5msg).2.2 = none ∧
    (handle_UpdateGrid C2st C5msg).1.grid = [" ", "Z"] := by
  exact ⟨rfl, rfl⟩

/-- C5 (amended): a `manual` update whose position is out of range even under
redis's negative tail-relative indexing (`position ≥ rows*cols` or
`position < -(rows*cols)`) fails with `OutOfRangeError`, leaves the whole
state unchanged, and sends nothing — the update is dropped before the
broadcast, so no connection sees any effect.  (Positions in
`[-(rows*cols), -1]`, excluded here, succeed and write the cell
`rows*cols + position`.) -/
theorem handle_UpdateGrid_manual_outOfRange (st : ServerState) (msg : GridMsg)
    (hm : msg.req.method = "manual")
    (hlen : (st.grid.length : Int) = st.rows * st.cols)
    (hout : st.rows * st.cols ≤ msg.req.position ∨
      msg.req.position < -(st.rows * st.cols)) :
    handle_UpdateGrid st msg = (st, [], some HandlerErr.OutOfRangeError) := by
  have hout' : (st.grid.length : Int) ≤ msg.req.position ∨
      msg.req.position < -(st.grid.length : Int) := by
    rw [hlen]; exact hout
  have hnone := lsetI_none (l := st.grid) msg.req.value hout'
  simp [handle_UpdateGrid, hm, hnone]

/-- Witness for C5 (amended): position 5 on the 1×2 state. -/
theorem handle_UpdateGrid_manual_outOfRange_witness :
    handle_UpdateGrid C2st
        { raw := "rawC5b", req := { method := "manual", position := 5, value := "Z" } } =
      (C2st, [], some HandlerErr.OutOfRangeError) :=
  handle_UpdateGrid_manual_outOfRange C2st
    { raw := "rawC5b", req := { method := "manual", position := 5, value := "Z" } }
    rfl (by decide) (Or.inl (by decide))

/-- A structurally inconsistent puzzle definition: `rows*cols = 1` but the
grid has length 2 and gridnums length 3. -/
def C6defn : JsonData :=
  { size := some { rows := 1, cols := 1 }
    grid := some ["A", "B"]
    clues := some { across := ["a"], down := ["d"] }
    gridnums := some [1, 2, 3]
    title := some "t" }

/-- C6 counterexample: loading the length-mismatched definition succeeds with
no error of any kind, and the mismatched lengths survive into the resulting
state (grid of length 2, gridnums of length 3, against `rows*cols = 1`). -/
theorem initializeRedisFromJson_accepts_mismatch :
    initializeRedisFromJson C6defn =
      Except.ok
        { rows := 1, cols := 1, grid := [" ", " "], answerGrid := ["A", "B"],
          gridNumbers := [1, 2, 3], cluesAcross := ["a"], cluesDown := ["d"],
          title := "t", revealedGrid := [-1], userHash := [] } ∧
    ¬ ((initializeRedisFromJson C6defn).isOk = true →
        ∀ st : ServerState, initializeRedisFromJson C6defn = Except.ok st →
          (st.grid.length : Int) = st.rows * st.cols) := by
  refine ⟨rfl, fun hcl => ?_⟩
  exact absurd (hcl rfl _ rfl) (by decide)

/-- C6 (amended): the loader performs no structural validation — it fails
(with a `KeyError`, aborting startup) exactly when a required top-level key is
missing, and any definition with all keys present loads successfully, length
mismatches included.  The nonemptiness side conditions keep the statement
inside the modelled redis behavior (`RPUSH`/`LPUSH` with an empty argument
pack is a redis arity error the model does not represent). -/
theorem initializeRedisFromJson_isOk_iff (j : JsonData)
    (hg : j.grid.elim True (fun g => g ≠ []))
    (hca : j.clues.elim True (fun c => c.across ≠ [] ∧ c.down ≠ []))
    (hgn : j.gridnums.elim True (fun n => n ≠ [])) :
    (initializeRedisFromJson j).isOk = true ↔
      (j.size.isSome ∧ j.grid.isSome ∧ j.clues.isSome ∧
        j.gridnums.isSome ∧ j.title.isSome) := by
  rcases j with ⟨size, grid, clues, gridnums, title⟩
  cases size <;> cases grid <;> cases clues <;> cases gridnums <;> cases title <;>
    simp [initializeRedisFromJson, Except.isOk, Except.toBool]

/-- Witness for C6 (amended): the mismatched-length definition has every key
present, and indeed loads successfully. -/
theorem initializeRedisFromJson_isOk_iff_witness :
    (initializeRedisFromJson C6defn).isOk = true ↔
      (C6defn.size.isSome ∧ C6defn.grid.isSome ∧ C6defn.clues.isSome ∧
        C6defn.gridnums.isSome ∧ C6defn.title.isSome) :=
  initializeRedisFromJson_isOk_iff C6defn (by simp [C6defn]) (by simp [C6defn])
    (by simp [C6defn])

/-- C7: a position update stores the sender's position under its socket id in
the presence hash and broadcasts the full `{websocketID, position}` snapshot
of the updated hash to every connected client, the sender included; when the
sender is the only presence entry, the snapshot contains exactly one entry —
the sender's. -/
theorem handle_UpdatePosition_ok (st : ServerState) (sid : String) (msg : PosMsg)
    (clients : List String) :
    hget (handle_UpdatePosition st sid msg).1.userHash sid = some msg.position ∧
    (handle_UpdatePosition st sid msg).2 =
      [Send.broadcast "serverPositionUpdate"
        (Payload.presenceSnapshot (hkeys (hset st.userHash sid msg.position))
          (hvals (hset st.userHash sid msg.position))) true] ∧
    (∀ c, c ∈ clients →
      deliveredTo clients sid (handle_UpdatePosition st sid msg).2 c =
        [("serverPositionUpdate",
          Payload.presenceSnapshot (hkeys (hset st.userHash sid msg.position))
            (hvals (hset st.userHash sid msg.position)))]) ∧
    ((hkeys st.userHash = [] ∨ hkeys st.userHash = [sid]) →
      hkeys (hset st.userHash sid msg.position) = [sid] ∧
      hvals (hset st.userHash sid msg.position) = [msg.position]) := by
  refine ⟨?_, rfl, ?_, ?_⟩
  · simpa [handle_UpdatePosition] using hget_hset_self st.userHash sid msg.position
  · intro c hc
    exact deliveredTo_broadcast_incl_of_mem clients sid c _ _ hc
  · intro hk
    rw [hset_solo st.userHash sid msg.position hk]
    exact ⟨rfl, rfl⟩

/-- Witness for C7: sender `x` is the only connection; the snapshot is the
single pair `x ↦ 5`. -/
theorem handle_UpdatePosition_ok_witness :
    hget (handle_UpdatePosition C2st "x" { raw := "rawC7", position := "5" }).1.userHash
        "x" = some "5" ∧
    deliveredTo ["x"] "x"
        (handle_UpdatePosition C2st "x" { raw := "rawC7", position := "5" }).2 "x" =
      [("serverPositionUpdate",
        Payload.presenceSnapshot (hkeys (hset C2st.userHash "x" "5"))
          (hvals (hset C2st.userHash "x" "5")))] ∧
    hkeys (hset C2st.userHash "x" "5") = ["x"] ∧
    hvals (hset C2st.userHash "x" "5") = ["5"] := by
  have h := handle_UpdatePosition_ok C2st "x" { raw := "rawC7", position := "5" } ["x"]
  exact ⟨h.1, h.2.2.1 "x" (by decide), h.2.2.2 (Or.inl rfl)⟩

/-- C8: on connect, the handler registers the new socket id in the presence
hash with position `"0"`, unicasts `serverAssignID` carrying that id to the
connecting client only (every other client receives nothing), sends nothing
else — in particular no puzzle state — and leaves every puzzle-state field
unchanged. -/
theorem handle_connect_ok (st : ServerState) (sid : String) (clients : List String)
    (hc : sid ∈ clients) :
    hget (handle_connect st sid).1.userHash sid = some "0" ∧
    (handle_connect st sid).2 = [Send.unicast "serverAssignID" (Payload.sid sid)] ∧
    deliveredTo clients sid (handle_connect st sid).2 sid =
      [("serverAssignID", Payload.sid sid)] ∧
    (∀ c, c ∈ clients → c ≠ sid →
      deliveredTo clients sid (handle_connect st sid).2 c = []) ∧
    (handle_connect st sid).1.grid = st.grid ∧
    (handle_connect st sid).1.answerGrid = st.answerGrid ∧
    (handle_connect st sid).1.revealedGrid = st.revealedGrid ∧
    (handle_connect st sid).1.gridNumbers = st.gridNumbers ∧
    (handle_connect st sid).1.cluesAcross = st.cluesAcross ∧
    (handle_connect st sid).1.cluesDown = st.cluesDown ∧
    (handle_connect st sid).1.title = st.title ∧
    (handle_connect st sid).1.rows = st.rows ∧
    (handle_connect st sid).1.cols = st.cols := by
  refine ⟨?_, rfl, ?_, ?_, rfl, rfl, rfl, rfl, rfl, rfl, rfl, rfl, rfl⟩
  · simpa [handle_connect] using hget_hset_self st.userHash sid "0"
  · exact deliveredTo_unicast_self clients sid _ _ hc
  · intro c _ hne
    exact deliveredTo_unicast_other clients sid c _ _ hne

/-- Witness for C8: `y` connects while `x` is also connected. -/
theorem handle_connect_ok_witness :
    hget (handle_connect C2st "y").1.userHash "y" = some "0" ∧
    (handle_connect C2st "y").2 = [Send.unicast "serverAssignID" (Payload.sid "y")] ∧
    deliveredTo ["x", "y"] "y" (handle_connect C2st "y").2 "y" =
      [("serverAssignID", Payload.sid "y")] ∧
    deliveredTo ["x", "y"] "y" (handle_connect C2st "y").2 "x" = [] ∧
    (handle_connect C2st "y").1.grid = C2st.grid := by
  have h := handle_connect_ok C2st "y" ["x", "y"] (by decide)
  exact ⟨h.1, h.2.1, h.2.2.1, h.2.2.2.1 "x" (by decide) (by decide), h.2.2.2.2.1⟩

/-- C9: on disconnect, the handler deletes the socket id's presence entry (the
id no longer appears among the hash's fields), broadcasts the reduced
positions-only snapshot — values without identities — as
`serverPositionUpdate` to every remaining client, excluding the disconnected
connection, and leaves every puzzle-state field unchanged. -/
theorem handle_disconnect_ok (st : ServerState) (sid : String)
    (clients : List String) :
    hget (handle_disconnect st sid).1.userHash sid = none ∧
    sid ∉ hkeys (handle_disconnect st sid).1.userHash ∧
    (handle_disconnect st sid).2 =
      [Send.broadcast "serverPositionUpdate"
        (Payload.positionsOnly (hvals (hdel st.userHash sid))) false] ∧
    (∀ c, c ∈ clients → c ≠ sid →
      deliveredTo clients sid (handle_disconnect st sid).2 c =
        [("serverPositionUpdate",
          Payload.positionsOnly (hvals (hdel st.userHash sid)))]) ∧
    deliveredTo clients sid (handle_disconnect st sid).2 sid = [] ∧
    (handle_disconnect st sid).1.grid = st.grid ∧
    (handle_disconnect st sid).1.answerGrid = st.answerGrid ∧
    (handle_disconnect st sid).1.revealedGrid = st.revealedGrid ∧
    (handle_disconnect st sid).1.gridNumbers = st.gridNumbers ∧
    (handle_disconnect st sid).1.cluesAcross = st.cluesAcross ∧
    (handle_disconnect st sid).1.cluesDown = st.cluesDown ∧
    (handle_disconnect st sid).1.title = st.title ∧
    (handle_disconnect st sid).1.rows = st.rows ∧
    (handle_disconnect st sid).1.cols = st.cols := by
  refine ⟨hget_hdel_self st.userHash sid, not_mem_hkeys_hdel st.userHash sid, rfl,
    ?_, ?_, rfl, rfl, rfl, rfl, rfl, rfl, rfl, rfl, rfl⟩
  · intro c hc hne
    exact deliveredTo_broadcast_excl_of_mem clients sid c _ _ hc hne
  · exact deliveredTo_broadcast_excl_self clients sid _ _

/-- Witness for C9: `x` disconnects while `y` stays, with both registered in
the presence hash. -/
theorem handle_disconnect_ok_witness :
    hget (handle_disconnect
        { C2st with userHash := [("x", "3"), ("y", "7")] } "x").1.userHash "x" = none ∧
    "x" ∉ hkeys (handle_disconnect
        { C2st with userHash := [("x", "3"), ("y", "7")] } "x").1.userHash ∧
    deliveredTo ["y"] "x"
        (handle_disconnect { C2st with userHash := [("x", "3"), ("y", "7")] } "x").2 "y" =
      [("serverPositionUpdate",
        Payload.positionsOnly (hvals (hdel [("x", "3"), ("y", "7")] "x")))] ∧
    deliveredTo ["y"] "x"
        (handle_disconnect { C2st with userHash := [("x", "3"), ("y", "7")] } "x").2 "x" =
      [] := by
  have h := handle_disconnect_ok { C2st with userHash := [("x", "3"), ("y", "7")] } "x" ["y"]
  exact ⟨h.1, h.2.1, h.2.2.2.1 "y" (by decide) (by decide), h.2.2.2.2.1⟩

end Crossword
